import Mathlib

/-!
Connection graph and notification side effects of the intern-backend routes

A shallow embedding of the route handlers of `routes/connections.js`,
`routes/posts.js` and `routes/messages.js`.  The document database is an
explicit `Store` value that every handler receives and returns next to its
HTTP response.

An object id is its twenty-four hexadecimal digits.  The id of the
authenticated user (`req.user._id`) and the ids inside stored documents are
object ids; an id that arrives in the URL or in the request body is text.  A
query or a write casts such text to an object id, accepting the digits in
either case, while `===`, `includes` and `indexOf` compare the text itself with
the lowercase `toString()` form of an object id.  The follow, unfollow and
message handlers therefore take the id of the other user as text.  The mutual,
like and comment handlers use the id from the URL only in `findById`, and take
the object id it casts to.

An exception thrown inside a handler's `try` block is caught by the handler's
own `catch`, which answers with an error status and `error.message`; writes
that were awaited before the throw stay in the store.  Two sources of
exceptions are modelled: reading a property of `null` after a lookup that found
nothing, and a rejected `notification.save()`.  Every handler that writes a
notification takes the outcome of that write as its first argument `failure`
(`none`: the document is inserted, `some e`: the write rejects with message
`e`).  All other store calls succeed.

The file has three parts: the data model and the handlers, lemmas about them
(among them that every handler preserves the invariants of the data model), and
the properties of the specification.
-/

namespace InternBackend

/-! ## Data model -/

/-- Identity of a stored document (`mongoose.Schema.Types.ObjectId`): twelve
bytes, written as twenty-four hexadecimal digits. -/
structure ObjectId where
  digits : List (Fin 16)
  size : digits.length = 24
  deriving DecidableEq

/-- The object id whose digits are the hexadecimal digits of `n`. -/
def ObjectId.ofNat (n : Nat) : ObjectId :=
  ⟨(List.range 24).reverse.map (fun i => Fin.ofNat (n / 16 ^ i)), by simp⟩

instance instOfNatObjectId (n : Nat) : OfNat ObjectId n := ⟨ObjectId.ofNat n⟩

/-- The lowercase character of a hexadecimal digit. -/
def hexLower (d : Fin 16) : Char :=
  match d.val with
  | 0 => '0' | 1 => '1' | 2 => '2' | 3 => '3' | 4 => '4' | 5 => '5' | 6 => '6' | 7 => '7'
  | 8 => '8' | 9 => '9' | 10 => 'a' | 11 => 'b' | 12 => 'c' | 13 => 'd' | 14 => 'e'
  | _ => 'f'

/-- The digit a character stands for; letters count in either case. -/
def hexValue (c : Char) : Option (Fin 16) :=
  if c = '0' then some 0 else if c = '1' then some 1 else if c = '2' then some 2
  else if c = '3' then some 3 else if c = '4' then some 4 else if c = '5' then some 5
  else if c = '6' then some 6 else if c = '7' then some 7 else if c = '8' then some 8
  else if c = '9' then some 9
  else if c = 'a' ∨ c = 'A' then some 10 else if c = 'b' ∨ c = 'B' then some 11
  else if c = 'c' ∨ c = 'C' then some 12 else if c = 'd' ∨ c = 'D' then some 13
  else if c = 'e' ∨ c = 'E' then some 14 else if c = 'f' ∨ c = 'F' then some 15
  else none

/-- The digits of a text made of hexadecimal characters only. -/
def parseDigits : List Char → Option (List (Fin 16))
  | [] => some []
  | c :: rest =>
    match hexValue c, parseDigits rest with
    | some d, some ds => some (d :: ds)
    | _, _ => none

/-- Method `ObjectId.prototype.toString()`: the twenty-four digits in
lowercase. -/
def ObjectId.toString (id : ObjectId) : String :=
  String.mk (id.digits.map hexLower)

/-- The cast of request text to an object id that queries and document
writes apply: twenty-four hexadecimal characters, upper or lower case, give the
id; `none` stands for the `CastError` thrown on any other text. -/
def castObjectId (text : String) : Option ObjectId :=
  match parseDigits text.data with
  | some ds => if h : ds.length = 24 then some ⟨ds, h⟩ else none
  | none => none

/-- The message of the `CastError` thrown when `text` is used as the `_id` of a
`User` query. -/
def castErrorMessage (text : String) : String :=
  "Cast to ObjectId failed for value \x22" ++ text
    ++ "\x22 (type string) at path \x22_id\x22 for model \x22User\x22"

/-- Method `array.includes(text)` on an array of object ids: the text is
compared with the `toString()` form of each element. -/
def includesText (l : List ObjectId) (text : String) : Bool :=
  l.any (fun c => c.toString == text)

/-- Method `array.indexOf(text)` on an array of object ids: the first index
whose `toString()` form is the text, and -1 when there is none. -/
def indexOfText (l : List ObjectId) (text : String) : Int :=
  match l.findIdx? (fun c => c.toString == text) with
  | some i => (i : Int)
  | none => -1

/-- The fields of `models/User.js` that the handlers read or return. String
fields carry the defaults of the schema. -/
structure User where
  _id : ObjectId
  name : String
  email : String := ""
  profilePicture : String := ""
  headline : String := ""
  location : String := ""
  about : String := ""
  skills : List String := []
  connections : List ObjectId := []
  deriving DecidableEq

/-- The `type` enum of `models/Notification.js`. -/
inductive NotificationType where
  | follow
  | like
  | comment
  | message
  deriving DecidableEq

/-- A document of `models/Notification.js`. -/
structure Notification where
  recipient : ObjectId
  sender : ObjectId
  type : NotificationType
  message : String
  read : Bool := false
  relatedPost : Option ObjectId := none
  relatedMessage : Option ObjectId := none
  deriving DecidableEq

/-- Modelled from the spec: an entry of a post's `comments` sequence
(`models/Post.js` is not part of the sources): user reference, text and the
timestamp assigned on the server. -/
structure Comment where
  user : ObjectId
  text : String
  createdAt : Nat
  deriving DecidableEq

/-- Modelled from the spec: the post document (`models/Post.js` is not part of
the sources): author reference, content, image, the likes kept as a sequence of
user references, and the ordered comments. -/
structure Post where
  _id : ObjectId
  author : ObjectId
  content : String
  image : String := ""
  likes : List ObjectId := []
  comments : List Comment := []
  deriving DecidableEq

/-- Modelled from the spec: the direct message document (`models/Message.js` is
not part of the sources): sender, receiver, content and the read flag. -/
structure Message where
  _id : ObjectId
  sender : ObjectId
  receiver : ObjectId
  content : String
  read : Bool := false
  deriving DecidableEq

/-- The four collections the handlers touch, each in the store's natural
order. -/
structure Store where
  users : List User := []
  posts : List Post := []
  messages : List Message := []
  notifications : List Notification := []
  deriving DecidableEq

/-- The `{ _id, name, profilePicture }` projection of the mutual route. -/
structure ConnectionPreview where
  _id : ObjectId
  name : String
  profilePicture : String
  deriving DecidableEq

/-- What a handler sends back: the status code and the JSON body. -/
inductive Response where
  /-- Body `{ error: msg }` sent with `res.status(status)`. -/
  | error (status : Nat) (msg : String)
  /-- Body `{ errors: errors.array() }` of the request validators. -/
  | validationErrors (status : Nat) (msgs : List String)
  /-- Body `{ message: msg }`. -/
  | message (status : Nat) (msg : String)
  /-- Body `{ count, connections }` of the mutual route. -/
  | mutuals (count : Nat) (connections : List ConnectionPreview)
  /-- Body `{ connections, networkSize }` of the stats route. -/
  | stats (connections : Nat) (networkSize : Nat)
  /-- Body that is the post document. -/
  | post (status : Nat) (p : Post)
  /-- Body that is the message document. -/
  | sent (status : Nat) (m : Message)
  deriving DecidableEq

/-- The HTTP status of a response (`res.json` without `res.status` is 200). -/
def Response.status : Response → Nat
  | .error st _ => st
  | .validationErrors st _ => st
  | .message st _ => st
  | .mutuals _ _ => 200
  | .stats _ _ => 200
  | .post st _ => st
  | .sent st _ => st

/-! ## Store operations -/

/-- Query `User.findById(id)`: the stored user with that id, `none` for `null`. -/
def findUserById (s : Store) (id : ObjectId) : Option User :=
  s.users.find? (fun u => u._id == id)

/-- Query `Post.findById(id)`. -/
def findPostById (s : Store) (id : ObjectId) : Option Post :=
  s.posts.find? (fun p => p._id == id)

/-- Call `user.save()` on a loaded user: the stored document with the same `_id` is
replaced by the modified one. -/
def saveUser (s : Store) (u : User) : Store :=
  { s with users := s.users.map (fun v => if v._id = u._id then u else v) }

/-- Call `post.save()` on a loaded post. -/
def savePost (s : Store) (p : Post) : Store :=
  { s with posts := s.posts.map (fun q => if q._id = p._id then p else q) }

/-- Call `message.save()` on a new message: the document is inserted. -/
def saveMessage (s : Store) (m : Message) : Store :=
  { s with messages := s.messages ++ [m] }

/-- Call `notification.save()` on a new notification. The write is the only store
call whose rejection the handlers are examined under: `failure = some e` makes
the promise reject with an error of message `e`, `none` inserts the
document. -/
def saveNotification (failure : Option String) (s : Store) (n : Notification) :
    Except String Store :=
  match failure with
  | some e => .error e
  | none => .ok { s with notifications := s.notifications ++ [n] }

/-- Query modifier `.populate('connections')`: every reference is replaced by the referenced
user document; references without a document are dropped from the array. -/
def populate (s : Store) (refs : List ObjectId) : List User :=
  refs.filterMap (findUserById s)

/-- The message of the `TypeError` raised by reading property `prop` of
`null`. -/
def nullPropertyError (prop : String) : String :=
  "Cannot read properties of null (reading \x27" ++ prop ++ "\x27)"

/-! ## Route handlers -/

/-- Handler `router.post('/:id/follow')` of `routes/connections.js`; `actor` is
`req.user._id`, `target` is the text `req.params.id`. The self test and the
`includes` test compare the text; `findById`, `push` and the notification cast
it. -/
def follow (failure : Option String) (actor : ObjectId) (target : String) (s : Store) :
    Store × Response :=
  if target = actor.toString then
    (s, .error 400 "Cannot follow yourself")
  else
    match castObjectId target with
    | none => (s, .error 400 (castErrorMessage target))
    | some targetId =>
      match findUserById s targetId, findUserById s actor with
      | some _, some currentUser =>
        if includesText currentUser.connections target then
          (s, .error 400 "Already following this user")
        else
          let s1 := saveUser s
            { currentUser with connections := currentUser.connections ++ [targetId] }
          match saveNotification failure s1
              { recipient := targetId, sender := actor, type := .follow,
                message := currentUser.name ++ " started following you" } with
          | .ok s2 => (s2, .message 200 "User followed successfully")
          | .error e => (s1, .error 400 e)
      | _, _ => (s, .error 404 "User not found")

/-- Method `array.indexOf(x)` with an object id `x`: the first index holding
`x`, and -1 when there is none. -/
def indexOf (l : List ObjectId) (x : ObjectId) : Int :=
  if List.indexOf x l < l.length then (List.indexOf x l : Int) else -1

/-- Method `array.splice(start, 1)`: the array without the element at `start`; a
negative `start` counts from the end. -/
def splice (l : List ObjectId) (start : Int) : List ObjectId :=
  if start < 0 then l.eraseIdx (l.length - (-start).toNat) else l.eraseIdx start.toNat

/-- Handler `router.post('/:id/unfollow')` of `routes/connections.js`; `target`
is the text `req.params.id`, which is only compared, never cast. -/
def unfollow (actor : ObjectId) (target : String) (s : Store) : Store × Response :=
  match findUserById s actor with
  | none => (s, .error 404 "User not found")
  | some currentUser =>
    let connectionIndex := indexOfText currentUser.connections target
    if connectionIndex = -1 then
      (s, .error 400 "Not following this user")
    else
      (saveUser s
          { currentUser with connections := splice currentUser.connections connectionIndex },
        .message 200 "User unfollowed successfully")

/-- Handler `router.get('/:id/mutual')` of `routes/connections.js`; `actor` is the
requesting user (`currentUser`), `target` is the object id that `req.params.id`
casts to in `findById`, the only use of the text. -/
def mutualConnections (actor target : ObjectId) (s : Store) : Response :=
  match findUserById s target, findUserById s actor with
  | some targetUser, some currentUser =>
    let targetConnections := populate s targetUser.connections
    let currentConnections := populate s currentUser.connections
    let mutualConns := currentConnections.filter (fun connection =>
      targetConnections.any (fun targetConnection => targetConnection._id == connection._id))
    .mutuals mutualConns.length
      ((mutualConns.take 5).map (fun conn =>
        { _id := conn._id, name := conn.name, profilePicture := conn.profilePicture }))
  | _, _ => .error 404 "User not found"

/-- Method `Set.prototype.add`: a JavaScript `Set` keeps insertion order and holds a
value once. -/
def setAdd (set : List ObjectId) (x : ObjectId) : List ObjectId :=
  if x ∈ set then set else set ++ [x]

/-- Method `Set.prototype.delete`. -/
def setDelete (set : List ObjectId) (x : ObjectId) : List ObjectId :=
  set.erase x

/-- The `for (const connection of user.connections)` loop of the stats route:
each direct connection is looked up again and the ids of its populated
connections are added to `networkIds`. A lookup that yields `null` throws when
`.connections` is read, which ends the loop. -/
def collectNetworkIds (s : Store) : List User → List ObjectId → Except String (List ObjectId)
  | [], networkIds => .ok networkIds
  | connection :: rest, networkIds =>
    match findUserById s connection._id with
    | none => .error (nullPropertyError "connections")
    | some connectionData =>
      collectNetworkIds s rest
        ((populate s connectionData.connections).foldl
          (fun acc conn => setAdd acc conn._id) networkIds)

/-- Handler `router.get('/stats')` of `routes/connections.js`. There is no `!user`
test: with `user` being `null`, reading `user.connections` throws and the
`catch` answers 500. -/
def networkStats (actor : ObjectId) (s : Store) : Response :=
  match findUserById s actor with
  | none => .error 500 (nullPropertyError "connections")
  | some user =>
    let connections := populate s user.connections
    let totalConnections := connections.length
    match collectNetworkIds s connections [] with
    | .error e => .error 500 e
    | .ok networkIds =>
      let withoutSelf := setDelete networkIds actor
      let withoutDirect := connections.foldl (fun acc conn => setDelete acc conn._id) withoutSelf
      .stats totalConnections withoutDirect.length

/-- Handler `router.post('/:id/like')` of `routes/posts.js`. On the add branch the
notification is saved before `post.save()`, so a throw there leaves the post
as stored. The response carries the post document (its author reference is
not expanded here). -/
def toggleLike (failure : Option String) (actor postId : ObjectId) (s : Store) :
    Store × Response :=
  match findPostById s postId with
  | none => (s, .error 404 "Post not found")
  | some post =>
    let likeIndex := indexOf post.likes actor
    if likeIndex > -1 then
      let post1 := { post with likes := splice post.likes likeIndex }
      (savePost s post1, .post 200 post1)
    else
      let post1 := { post with likes := post.likes ++ [actor] }
      if post.author ≠ actor then
        match findUserById s actor with
        | none => (s, .error 400 (nullPropertyError "name"))
        | some liker =>
          match saveNotification failure s
              { recipient := post.author, sender := actor, type := .like,
                message := liker.name ++ " liked your post",
                relatedPost := some post._id } with
          | .error e => (s, .error 400 e)
          | .ok s1 => (savePost s1 post1, .post 200 post1)
      else
        (savePost s post1, .post 200 post1)

/-- Handler `router.post('/:id/comment')` of `routes/posts.js`; `now` is the timestamp
the server assigns to the new comment. -/
def addComment (failure : Option String) (now : Nat) (actor postId : ObjectId)
    (text : String) (s : Store) : Store × Response :=
  if text = "" then
    (s, .validationErrors 400 ["Comment text is required"])
  else
    match findPostById s postId with
    | none => (s, .error 404 "Post not found")
    | some post =>
      let post1 :=
        { post with comments := post.comments ++ [{ user := actor, text := text, createdAt := now }] }
      let s1 := savePost s post1
      if post.author ≠ actor then
        match findUserById s1 actor with
        | none => (s1, .error 400 (nullPropertyError "name"))
        | some commenter =>
          match saveNotification failure s1
              { recipient := post.author, sender := actor, type := .comment,
                message := commenter.name ++ " commented on your post",
                relatedPost := some post._id } with
          | .error e => (s1, .error 400 e)
          | .ok s2 => (s2, .post 200 post1)
      else
        (s1, .post 200 post1)

/-- Handler `router.post('/')` of `routes/messages.js`; `receiver` is the text
`req.body.receiver`, `messageId` is the id the new message document receives.
The two validators reject an empty receiver and an empty content before the
handler body runs. The `includes` test and the self test compare the text of
the receiver; `findById` and the two new documents cast it. -/
def sendMessage (failure : Option String) (messageId actor : ObjectId) (receiver : String)
    (content : String) (s : Store) : Store × Response :=
  let errors :=
    (if receiver = "" then ["Receiver is required"] else [])
      ++ (if content = "" then ["Message content is required"] else [])
  if errors ≠ [] then
    (s, .validationErrors 400 errors)
  else
    match castObjectId receiver with
    | none => (s, .error 400 (castErrorMessage receiver))
    | some receiverId =>
      match findUserById s receiverId with
      | none => (s, .error 404 "Receiver not found")
      | some _ =>
        match findUserById s actor with
        | none => (s, .error 400 (nullPropertyError "connections"))
        | some senderUser =>
          if !includesText senderUser.connections receiver ∧ actor.toString ≠ receiver then
            (s, .error 403 "You can only message people in your network")
          else
            let message : Message :=
              { _id := messageId, sender := actor, receiver := receiverId, content := content }
            let s1 := saveMessage s message
            if actor.toString ≠ receiver then
              match findUserById s1 actor with
              | none => (s1, .error 400 (nullPropertyError "name"))
              | some sender =>
                match saveNotification failure s1
                    { recipient := receiverId, sender := actor, type := .message,
                      message := sender.name ++ " sent you a message",
                      relatedMessage := some message._id } with
                | .error e => (s1, .error 400 e)
                | .ok s2 => (s2, .sent 201 message)
            else
              (s1, .sent 201 message)

/-! ## Specification-side definitions and invariants -/

/-- The ids the mutual route keeps: the connection references of the requesting
user, in their stored order, that point to a stored user and also occur among
the references of the target user. -/
def mutualIds (s : Store) (currentUser targetUser : User) : List ObjectId :=
  currentUser.connections.filter
    (fun c => (findUserById s c).isSome && decide (c ∈ targetUser.connections))

/-- Referential integrity of the connection graph: every connection reference
of every stored user is the id of a stored user. `follow` only appends the id
it has just looked up, and no handler removes a user. -/
def Closed (s : Store) : Prop :=
  ∀ u ∈ s.users, ∀ c ∈ u.connections, (findUserById s c).isSome

instance decidableClosed (s : Store) : Decidable (Closed s) := by
  unfold Closed; infer_instance

/-- The stored connection list of the user with id `c`; empty when there is no
such user. -/
def connectionsOf (s : Store) (c : ObjectId) : List ObjectId :=
  match findUserById s c with
  | some u => u.connections
  | none => []

/-- Network size as the specification words it: the distinct ids in the union
of the connection lists of the direct connections of `u`, minus `u` itself,
minus the direct connections of `u`. -/
def secondDegree (s : Store) (u : User) : Finset ObjectId :=
  ((u.connections.toFinset.biUnion (fun c => (connectionsOf s c).toFinset)) \ {u._id})
    \ u.connections.toFinset

/-- The data-model invariants every handler maintains: connection references
point to stored users, and no post holds a like twice. -/
def WellFormed (s : Store) : Prop :=
  Closed s ∧ ∀ p ∈ s.posts, p.likes.Nodup

instance decidableWellFormed (s : Store) : Decidable (WellFormed s) := by
  unfold WellFormed; infer_instance

/-- The state-changing requests of the three routers, with their inputs. -/
inductive Request where
  | follow (failure : Option String) (actor : ObjectId) (target : String)
  | unfollow (actor : ObjectId) (target : String)
  | toggleLike (failure : Option String) (actor postId : ObjectId)
  | addComment (failure : Option String) (now : Nat) (actor postId : ObjectId) (text : String)
  | sendMessage (failure : Option String) (messageId actor : ObjectId) (receiver : String)
    (content : String)

/-- Dispatch of a request to its handler. -/
def handle : Request → Store → Store × Response
  | .follow failure actor target, s => follow failure actor target s
  | .unfollow actor target, s => unfollow actor target s
  | .toggleLike failure actor postId, s => toggleLike failure actor postId s
  | .addComment failure now actor postId text, s => addComment failure now actor postId text s
  | .sendMessage failure messageId actor receiver content, s =>
    sendMessage failure messageId actor receiver content s

/-- The store after serving a sequence of requests one after the other. -/
def run : List Request → Store → Store
  | [], s => s
  | r :: rest, s => run rest (handle r s).1

/-! ## The scenario of the specification -/

/-- User A of the scenario in the specification: A has connections B and C. -/
def userA : User := { _id := 1, name := "A", connections := [2, 3] }

/-- User B of the scenario: B has connections C and D. -/
def userB : User := { _id := 2, name := "B", connections := [3, 4] }

/-- User C of the scenario, without connections. -/
def userC : User := { _id := 3, name := "C" }

/-- User D of the scenario, without connections. -/
def userD : User := { _id := 4, name := "D" }

/-- A post written by B that nobody has liked yet. -/
def postOfB : Post := { _id := 10, author := 2, content := "hello" }

/-- The store of the scenario: the four users and the post of B. -/
def scenario : Store := { users := [userA, userB, userC, userD], posts := [postOfB] }

/-- User E, whose id `00000000000000000000000a` has a letter among its
digits. -/
def userE : User := { _id := 10, name := "E" }

/-- User F, with id `0000000000000000000000ab`. -/
def userF : User := { _id := 171, name := "F" }

/-- User G, with id `00000000000000000000000b`, who follows F. -/
def userG : User := { _id := 11, name := "G", connections := [171] }

/-- A store of three users whose ids can be spelled in upper case. -/
def hexStore : Store := { users := [userE, userF, userG] }

/-- A store with a connection reference that points to no stored user: H and
I both hold the id `…0d`, which no user carries. -/
def danglingStore : Store :=
  { users := [{ _id := 12, name := "H", connections := [13] },
              { _id := 14, name := "I", connections := [13] }] }

/-- The store after E has followed F twice, the second time with the id of F in
upper case. -/
def followedTwice : Store :=
  run [.follow none 10 "0000000000000000000000ab", .follow none 10 "0000000000000000000000AB"]
    hexStore

/-! ## Lemmas about the store and the handlers -/

/-- A user found by id carries that id. -/
theorem findUserById_id {s : Store} {i : ObjectId} {u : User}
    (h : findUserById s i = some u) : u._id = i := by
  have := List.find?_some h
  simpa using this

/-- A user found by id is a stored document. -/
theorem findUserById_mem {s : Store} {i : ObjectId} {u : User}
    (h : findUserById s i = some u) : u ∈ s.users :=
  List.mem_of_find?_eq_some h

/-- Lookup after `user.save()`: the document found before, replaced by the saved
one when the ids agree. -/
theorem findUserById_saveUser (s : Store) (u : User) (i : ObjectId) :
    findUserById (saveUser s u) i
      = (findUserById s i).map (fun v => if v._id = u._id then u else v) := by
  unfold findUserById saveUser
  simp only [List.find?_map]
  have hp : ((fun w : User => w._id == i) ∘ fun v : User => if v._id = u._id then u else v)
      = fun w : User => w._id == i := by
    funext v
    simp only [Function.comp]
    split
    · next h => rw [h]
    · rfl
  rw [hp]

/-- The ids of a populated array are the references that point to a stored
user, in order. -/
theorem populate_ids (s : Store) (refs : List ObjectId) :
    (populate s refs).map (fun u => u._id) = refs.filter (fun c => (findUserById s c).isSome) := by
  induction refs with
  | nil => rfl
  | cons c rest ih =>
    unfold populate at ih ⊢
    rw [List.filterMap_cons, List.filter_cons]
    cases h : findUserById s c with
    | none => simpa using ih
    | some u => simp [ih, findUserById_id h]

/-- Membership in a populated array. -/
theorem mem_populate {s : Store} {refs : List ObjectId} {u : User} :
    u ∈ populate s refs ↔ ∃ c ∈ refs, findUserById s c = some u := by
  simp [populate, List.mem_filterMap]

/-- Filtering a populated array by a test on the id is populating the filtered
references. -/
theorem populate_filter (s : Store) (refs : List ObjectId) (p : ObjectId → Bool) :
    (populate s refs).filter (fun u => p u._id) = populate s (refs.filter p) := by
  induction refs with
  | nil => rfl
  | cons c rest ih =>
    unfold populate at ih ⊢
    rw [List.filterMap_cons, List.filter_cons]
    cases h : findUserById s c with
    | none =>
      by_cases hp : p c = true
      · simp [hp, h, ih]
      · simp [hp, ih]
    | some u =>
      have hid := findUserById_id h
      by_cases hp : p c = true
      · simp [hp, h, ih, hid]
      · simp [hp, ih, hid]

/-- Populating references that are all stored keeps the length. -/
theorem populate_length_of_stored (s : Store) (l : List ObjectId)
    (h : ∀ c ∈ l, (findUserById s c).isSome) : (populate s l).length = l.length := by
  have := congrArg List.length (populate_ids s l)
  rw [List.length_map] at this
  rw [this, List.filter_eq_self.mpr]
  intro c hc; simpa using h c hc

/-- On references that are all stored, `slice(0, n)` commutes with populate. -/
theorem populate_take_of_stored (s : Store) (n : Nat) (l : List ObjectId)
    (h : ∀ c ∈ l, (findUserById s c).isSome) :
    (populate s l).take n = populate s (l.take n) := by
  induction l generalizing n with
  | nil => simp [populate]
  | cons c rest ih =>
    obtain ⟨u, hu⟩ := Option.isSome_iff_exists.mp (h c (List.mem_cons_self _ _))
    have hrest : ∀ d ∈ rest, (findUserById s d).isSome :=
      fun d hd => h d (List.mem_cons_of_mem _ hd)
    cases n with
    | zero => simp [populate]
    | succ m =>
      have := ih m hrest
      unfold populate at this ⊢
      simp [List.filterMap_cons, hu, this]

/-- The mutual route in terms of ids: the count is the number of `mutualIds`, the
preview is the projection of the first five of them. -/
theorem mutualConnections_eq (a x : ObjectId) (s : Store) :
    mutualConnections a x s =
      match findUserById s x, findUserById s a with
      | some targetUser, some currentUser =>
        .mutuals (mutualIds s currentUser targetUser).length
          ((populate s ((mutualIds s currentUser targetUser).take 5)).map (fun conn =>
            { _id := conn._id, name := conn.name, profilePicture := conn.profilePicture }))
      | _, _ => .error 404 "User not found" := by
  unfold mutualConnections
  cases hx : findUserById s x with
  | none => rfl
  | some tu =>
    cases ha : findUserById s a with
    | none => rfl
    | some cu =>
      simp only
      have hany : ∀ u : User,
          (populate s tu.connections).any (fun tc => tc._id == u._id)
            = ((findUserById s u._id).isSome && decide (u._id ∈ tu.connections)) := by
        intro u
        have h1 : (populate s tu.connections).any (fun tc => tc._id == u._id)
            = decide (u._id ∈ (populate s tu.connections).map (fun v => v._id)) := by
          rw [Bool.eq_iff_iff]
          simp [List.any_eq_true, List.mem_map]
        rw [h1, populate_ids, Bool.eq_iff_iff]
        simp [List.mem_filter, and_comm]
      have hfilter : (populate s cu.connections).filter
            (fun connection => (populate s tu.connections).any
              (fun targetConnection => targetConnection._id == connection._id))
          = populate s (mutualIds s cu tu) := by
        unfold mutualIds
        rw [← populate_filter]
        congr 1
        funext u
        exact hany u
      have hstored : ∀ c ∈ mutualIds s cu tu, (findUserById s c).isSome := by
        intro c hc
        have := (List.mem_filter.mp hc).2
        simp at this
        simp [this.1]
      rw [hfilter, populate_length_of_stored s _ hstored, populate_take_of_stored s 5 _ hstored]

/-- Adding the ids of `l` to a duplicate-free `networkIds` keeps it duplicate-free
and yields the union. -/
theorem foldl_setAdd (l : List User) (acc : List ObjectId) (hacc : acc.Nodup) :
    (l.foldl (fun acc conn => setAdd acc conn._id) acc).Nodup ∧
      ∀ x, x ∈ l.foldl (fun acc conn => setAdd acc conn._id) acc
        ↔ x ∈ acc ∨ x ∈ l.map (fun v => v._id) := by
  induction l generalizing acc with
  | nil => simp [hacc]
  | cons v rest ih =>
    have hn : (setAdd acc v._id).Nodup := by
      unfold setAdd
      split
      · exact hacc
      · next h => exact List.Nodup.append hacc (List.nodup_singleton _) (by simpa using h)
    have hm : ∀ x, x ∈ setAdd acc v._id ↔ x ∈ acc ∨ x = v._id := by
      intro x
      unfold setAdd
      split
      · next h =>
        constructor
        · exact Or.inl
        · rintro (h1 | h1)
          · exact h1
          · exact h1 ▸ h
      · simp
    obtain ⟨h1, h2⟩ := ih (setAdd acc v._id) hn
    refine ⟨by simpa [List.foldl_cons] using h1, ?_⟩
    intro x
    rw [List.foldl_cons, h2 x, hm x]
    simp [or_assoc]

/-- Deleting the ids of `l` from a duplicate-free `networkIds` keeps it
duplicate-free and yields the difference. -/
theorem foldl_setDelete (l : List User) (acc : List ObjectId) (hacc : acc.Nodup) :
    (l.foldl (fun acc conn => setDelete acc conn._id) acc).Nodup ∧
      ∀ x, x ∈ l.foldl (fun acc conn => setDelete acc conn._id) acc
        ↔ x ∈ acc ∧ x ∉ l.map (fun v => v._id) := by
  induction l generalizing acc with
  | nil => simp [hacc]
  | cons v rest ih =>
    have hn : (setDelete acc v._id).Nodup := hacc.erase _
    obtain ⟨h1, h2⟩ := ih (setDelete acc v._id) hn
    refine ⟨by simpa [List.foldl_cons] using h1, ?_⟩
    intro x
    rw [List.foldl_cons, h2 x]
    unfold setDelete
    rw [hacc.mem_erase_iff]
    simp only [List.map_cons, List.mem_cons, not_or]
    tauto

/-- The stats loop over connections that can all be looked up again does not
throw, and collects the ids of their populated connections. -/
theorem collectNetworkIds_ok (s : Store) (cs : List User) (acc : List ObjectId)
    (hcs : ∀ c ∈ cs, findUserById s c._id = some c) (hacc : acc.Nodup) :
    ∃ ids, collectNetworkIds s cs acc = .ok ids ∧ ids.Nodup ∧
      ∀ x, x ∈ ids ↔ x ∈ acc ∨ ∃ c ∈ cs, x ∈ (populate s c.connections).map (fun v => v._id) := by
  induction cs generalizing acc with
  | nil => exact ⟨acc, rfl, hacc, by simp⟩
  | cons c rest ih =>
    have hc := hcs c (List.mem_cons_self _ _)
    obtain ⟨hn, hm⟩ := foldl_setAdd (populate s c.connections) acc hacc
    obtain ⟨ids, h1, h2, h3⟩ := ih _ (fun d hd => hcs d (List.mem_cons_of_mem _ hd)) hn
    refine ⟨ids, ?_, h2, ?_⟩
    · simp only [collectNetworkIds, hc]
      exact h1
    · intro x
      rw [h3 x, hm x]
      simp only [List.mem_cons, exists_eq_or_imp]
      tauto

/-- The test `indexOf(x) > -1` is membership. -/
theorem indexOf_gt_iff (l : List ObjectId) (x : ObjectId) : indexOf l x > -1 ↔ x ∈ l := by
  unfold indexOf
  split
  · next h => simp [List.indexOf_lt_length.mp h]; omega
  · next h =>
    have : x ∉ l := fun hx => h (List.indexOf_lt_length.mpr hx)
    simp [this]

/-- The test `indexOf(x) === -1` is absence. -/
theorem indexOf_eq_neg_one_iff (l : List ObjectId) (x : ObjectId) : indexOf l x = -1 ↔ x ∉ l := by
  unfold indexOf
  split
  · next h =>
    have hx := List.indexOf_lt_length.mp h
    constructor
    · intro h1; omega
    · intro h1; exact absurd hx h1
  · next h =>
    have : x ∉ l := fun hx => h (List.indexOf_lt_length.mpr hx)
    simp [this]

/-- Splicing one element out at `indexOf(x)` removes the first occurrence of `x`. -/
theorem splice_indexOf (l : List ObjectId) (x : ObjectId) (h : x ∈ l) :
    splice l (indexOf l x) = l.erase x := by
  unfold indexOf splice
  rw [if_pos (List.indexOf_lt_length.mpr h)]
  have : ¬ ((List.indexOf x l : Int) < 0) := by omega
  rw [if_neg this]
  simp [List.eraseIdx_indexOf_eq_erase]

/-- A post found by id carries that id. -/
theorem findPostById_id {s : Store} {i : ObjectId} {p : Post}
    (h : findPostById s i = some p) : p._id = i := by
  have := List.find?_some h
  simpa using this

/-- Lookup after `post.save()`. -/
theorem findPostById_savePost (s : Store) (p : Post) (i : ObjectId) :
    findPostById (savePost s p) i
      = (findPostById s i).map (fun q => if q._id = p._id then p else q) := by
  unfold findPostById savePost
  simp only [List.find?_map]
  have hp : ((fun w : Post => w._id == i) ∘ fun q : Post => if q._id = p._id then p else q)
      = fun w : Post => w._id == i := by
    funext q
    simp only [Function.comp]
    split
    · next h => rw [h]
    · rfl
  rw [hp]

/-- The unlike branch: the first occurrence of the actor is removed and the post
is saved; nothing else is written. -/
theorem toggleLike_unlike (failure : Option String) (actor postId : ObjectId) (s : Store)
    (p : Post) (hp : findPostById s postId = some p) (hin : actor ∈ p.likes) :
    toggleLike failure actor postId s
      = (savePost s { p with likes := p.likes.erase actor },
         Response.post 200 { p with likes := p.likes.erase actor }) := by
  unfold toggleLike
  rw [hp]
  simp only
  rw [if_pos ((indexOf_gt_iff _ _).mpr hin), splice_indexOf _ _ hin]

/-- The like branch on a post of the actor: the like is appended and the post is
saved, no notification is written. -/
theorem toggleLike_like_own (failure : Option String) (actor postId : ObjectId) (s : Store)
    (p : Post) (hp : findPostById s postId = some p) (hnot : actor ∉ p.likes)
    (hauth : p.author = actor) :
    toggleLike failure actor postId s
      = (savePost s { p with likes := p.likes ++ [actor] },
         Response.post 200 { p with likes := p.likes ++ [actor] }) := by
  unfold toggleLike
  rw [hp]
  simp only
  rw [if_neg (fun h => hnot ((indexOf_gt_iff _ _).mp h))]
  simp [hauth]

/-- The like branch on a post of somebody else, with a working notification
store: the notification is inserted, then the post is saved with the like. -/
theorem toggleLike_like_other (actor postId : ObjectId) (s : Store)
    (p : Post) (u : User) (hp : findPostById s postId = some p) (hnot : actor ∉ p.likes)
    (hauth : p.author ≠ actor) (hu : findUserById s actor = some u) :
    toggleLike none actor postId s
      = (savePost
          { s with notifications := s.notifications ++
              [{ recipient := p.author, sender := actor, type := .like,
                 message := u.name ++ " liked your post", relatedPost := some p._id }] }
          { p with likes := p.likes ++ [actor] },
         Response.post 200 { p with likes := p.likes ++ [actor] }) := by
  unfold toggleLike
  rw [hp]
  simp only
  rw [if_neg (fun h => hnot ((indexOf_gt_iff _ _).mp h))]
  simp [hauth, hu, saveNotification]

/-- Saving a document under the id it was loaded with makes it the one found. -/
theorem findPostById_savePost_self (s : Store) (p q : Post) (i : ObjectId)
    (hp : findPostById s i = some p) (hq : q._id = p._id) :
    findPostById (savePost s q) i = some q := by
  rw [findPostById_savePost, hp]
  simp [hq]


/-- Lookup after saving a modified copy of a stored user: the copy under its own
id, the old answer under every other id. -/
theorem findUserById_saveUser_eq (s : Store) (u v : User) (i : ObjectId)
    (hu : findUserById s u._id = some u) (hv : v._id = u._id) :
    findUserById (saveUser s v) i = if i = u._id then some v else findUserById s i := by
  rw [findUserById_saveUser]
  split
  · next h => subst h; rw [hu]; simp [hv]
  · next h =>
    cases hf : findUserById s i with
    | none => rfl
    | some w =>
      have := findUserById_id hf
      simp [hv, this, h]

/-- Parsing the lowercase character of a digit gives the digit back. -/
theorem hexValue_hexLower : ∀ d : Fin 16, hexValue (hexLower d) = some d := by
  decide

/-- Parsing the lowercase characters of a digit sequence gives it back. -/
theorem parseDigits_map (ds : List (Fin 16)) : parseDigits (ds.map hexLower) = some ds := by
  induction ds with
  | nil => rfl
  | cons d rest ih => simp [parseDigits, hexValue_hexLower, ih]

/-- Casting the `toString()` form of an object id gives the id back. -/
theorem castObjectId_toString (id : ObjectId) : castObjectId id.toString = some id := by
  unfold castObjectId ObjectId.toString
  simp [parseDigits_map, id.size]

/-- Text that casts to `b` can only be the `toString()` form of `b`. -/
theorem eq_of_toString_eq_cast {text : String} {b c : ObjectId}
    (hcast : castObjectId text = some b) (h : c.toString = text) : c = b := by
  rw [← h, castObjectId_toString] at hcast
  exact Option.some.inj hcast

/-- The `toString()` form determines the object id. -/
theorem toString_injective {a b : ObjectId} (h : a.toString = b.toString) : a = b :=
  eq_of_toString_eq_cast (castObjectId_toString b) h

/-- When `includes(text)` holds, the id the text casts to is in the array. -/
theorem mem_of_includesText {l : List ObjectId} {text : String} {b : ObjectId}
    (hcast : castObjectId text = some b) (h : includesText l text = true) : b ∈ l := by
  unfold includesText at h
  obtain ⟨c, hc, hct⟩ := List.any_eq_true.mp h
  have : c = b := eq_of_toString_eq_cast hcast (by simpa using hct)
  exact this ▸ hc

/-- On the `toString()` form of an id, `includes` is membership. -/
theorem includesText_toString (l : List ObjectId) (b : ObjectId) :
    includesText l b.toString = true ↔ b ∈ l := by
  constructor
  · exact mem_of_includesText (castObjectId_toString b)
  · intro h
    unfold includesText
    exact List.any_eq_true.mpr ⟨b, h, by simp⟩

/-- Splicing one element out never adds an id. -/
theorem mem_of_mem_splice {l : List ObjectId} {k : Int} {c : ObjectId}
    (h : c ∈ splice l k) : c ∈ l := by
  unfold splice at h
  split at h <;> exact List.mem_of_mem_eraseIdx h

/-- A successful notification write touches only the notifications. -/
theorem saveNotification_ok {failure : Option String} {s s2 : Store} {n : Notification}
    (h : saveNotification failure s n = .ok s2) :
    s2.users = s.users ∧ s2.posts = s.posts ∧ s2.messages = s.messages := by
  cases failure with
  | some e => simp [saveNotification] at h
  | none =>
    simp only [saveNotification, Except.ok.injEq] at h
    subst h
    exact ⟨rfl, rfl, rfl⟩

/-- The user collection after a follow: untouched, or the actor saved with the
id the target text casts to appended. -/
theorem follow_users (failure : Option String) (a : ObjectId) (target : String) (s : Store) :
    (follow failure a target s).1.users = s.users ∨
      ∃ ua b, castObjectId target = some b ∧ findUserById s a = some ua ∧
        (findUserById s b).isSome ∧
        (follow failure a target s).1.users
          = (saveUser s { ua with connections := ua.connections ++ [b] }).users := by
  unfold follow
  split
  · exact Or.inl rfl
  · cases hc : castObjectId target with
    | none => exact Or.inl rfl
    | some b =>
      simp only
      cases hb : findUserById s b with
      | none => exact Or.inl rfl
      | some ub =>
        cases ha : findUserById s a with
        | none => exact Or.inl rfl
        | some ua =>
          simp only
          split
          · exact Or.inl rfl
          · right
            refine ⟨ua, b, rfl, rfl, by simp [hb], ?_⟩
            cases failure <;> rfl

/-- A follow that answers with the success message cast the target text, found
both users and saved the actor with the target id appended. -/
theorem follow_success (failure : Option String) (a : ObjectId) (target : String) (s : Store)
    (hok : (follow failure a target s).2
      = Response.message 200 "User followed successfully") :
    ∃ ua b, castObjectId target = some b ∧ findUserById s a = some ua ∧
      (findUserById s b).isSome ∧
      (follow failure a target s).1.users
        = (saveUser s { ua with connections := ua.connections ++ [b] }).users := by
  unfold follow at hok ⊢
  split at hok
  · simp at hok
  · next hself =>
    rw [if_neg hself]
    cases hc : castObjectId target with
    | none => simp [hc] at hok
    | some b =>
      simp only [hc] at hok ⊢
      cases hb : findUserById s b with
      | none => simp [hb] at hok
      | some ub =>
        cases ha : findUserById s a with
        | none => simp [hb, ha] at hok
        | some ua =>
          simp only [hb, ha] at hok ⊢
          split at hok
          · simp at hok
          · next hinc =>
            rw [if_neg hinc]
            cases failure with
            | some e => simp [saveNotification] at hok
            | none => exact ⟨ua, b, rfl, rfl, by simp [hb], rfl⟩

/-- A follow does not write posts. -/
theorem follow_posts (failure : Option String) (a : ObjectId) (target : String) (s : Store) :
    (follow failure a target s).1.posts = s.posts := by
  unfold follow
  split
  · rfl
  · split
    · rfl
    · split
      · split
        · rfl
        · cases failure <;> rfl
      · rfl

/-- The user collection after an unfollow: untouched, or the actor saved with
one element spliced out of the connections. -/
theorem unfollow_users (a : ObjectId) (target : String) (s : Store) :
    (unfollow a target s).1.users = s.users ∨
      ∃ ua k, findUserById s a = some ua ∧
        (unfollow a target s).1.users
          = (saveUser s { ua with connections := splice ua.connections k }).users := by
  unfold unfollow
  cases ha : findUserById s a with
  | none => exact Or.inl rfl
  | some ua =>
    simp only
    split
    · exact Or.inl rfl
    · exact Or.inr ⟨ua, _, rfl, rfl⟩

/-- An unfollow does not write posts. -/
theorem unfollow_posts (a : ObjectId) (target : String) (s : Store) :
    (unfollow a target s).1.posts = s.posts := by
  unfold unfollow
  split
  · rfl
  · simp only
    split <;> rfl

/-- A like toggle does not write users. -/
theorem toggleLike_users (failure : Option String) (actor postId : ObjectId) (s : Store) :
    (toggleLike failure actor postId s).1.users = s.users := by
  unfold toggleLike
  split
  · rfl
  · simp only
    split
    · rfl
    · split
      · split
        · rfl
        · cases failure <;> rfl
      · rfl

/-- A comment does not write users. -/
theorem addComment_users (failure : Option String) (now : Nat) (actor postId : ObjectId)
    (text : String) (s : Store) :
    (addComment failure now actor postId text s).1.users = s.users := by
  unfold addComment
  split
  · rfl
  · split
    · rfl
    · simp only
      split
      · split
        · rfl
        · cases failure <;> rfl
      · rfl

/-- A message writes neither users nor posts. -/
theorem sendMessage_users_posts (failure : Option String) (messageId a : ObjectId)
    (receiver content : String) (s : Store) :
    (sendMessage failure messageId a receiver content s).1.users = s.users ∧
      (sendMessage failure messageId a receiver content s).1.posts = s.posts := by
  unfold sendMessage
  simp only
  repeat' split
  all_goals first
    | exact ⟨rfl, rfl⟩
    | (rename_i h; exact ⟨(saveNotification_ok h).1, (saveNotification_ok h).2.1⟩)

/-- After a save every stored user is the saved document or was stored before. -/
theorem mem_users_of_saveUser {s s1 : Store} {v u : User}
    (hs1 : s1.users = (saveUser s v).users) (hu : u ∈ s1.users) : u = v ∨ u ∈ s.users := by
  rw [hs1] at hu
  obtain ⟨w, hw, rfl⟩ := List.mem_map.mp hu
  split
  · exact Or.inl rfl
  · exact Or.inr hw

/-- A save removes no user. -/
theorem isSome_of_saveUser {s s1 : Store} {v : User}
    (hs1 : s1.users = (saveUser s v).users) (i : ObjectId)
    (hi : (findUserById s i).isSome) : (findUserById s1 i).isSome := by
  have e : findUserById s1 i = findUserById (saveUser s v) i := by
    unfold findUserById; rw [hs1]
  rw [e, findUserById_saveUser]
  simpa using hi

/-- Referential integrity only reads the users. -/
theorem closed_of_users {s s1 : Store} (hu : s1.users = s.users) (h : Closed s) :
    Closed s1 := by
  intro u hmem c hc
  rw [hu] at hmem
  have := h u hmem c hc
  unfold findUserById at this ⊢
  rw [hu]; exact this

/-- Saving a user whose connection list holds stored ids only keeps referential
integrity. -/
theorem closed_of_saveUser {s s1 : Store} (ua : User) (l : List ObjectId)
    (h : Closed s) (hstored : ∀ c ∈ l, (findUserById s c).isSome)
    (hs1 : s1.users = (saveUser s { ua with connections := l }).users) : Closed s1 := by
  intro u hmem c hc
  rcases mem_users_of_saveUser hs1 hmem with rfl | hmem
  · exact isSome_of_saveUser hs1 c (hstored c hc)
  · exact isSome_of_saveUser hs1 c (h u hmem c hc)

/-- The follow handler keeps referential integrity, whatever the spelling of
the target and whatever it answers. -/
theorem closed_follow (failure : Option String) (a : ObjectId) (target : String) (s : Store)
    (h : Closed s) : Closed (follow failure a target s).1 := by
  rcases follow_users failure a target s with hu | ⟨ua, b, _, ha, hb, hu⟩
  · exact closed_of_users hu h
  · refine closed_of_saveUser ua _ h ?_ hu
    intro c hc
    rcases List.mem_append.mp hc with h1 | h1
    · exact h ua (findUserById_mem ha) c h1
    · rw [List.mem_singleton.mp h1]; exact hb

/-- The unfollow handler keeps referential integrity. -/
theorem closed_unfollow (a : ObjectId) (target : String) (s : Store)
    (h : Closed s) : Closed (unfollow a target s).1 := by
  rcases unfollow_users a target s with hu | ⟨ua, k, ha, hu⟩
  · exact closed_of_users hu h
  · refine closed_of_saveUser ua _ h ?_ hu
    intro c hc
    exact h ua (findUserById_mem ha) c (mem_of_mem_splice hc)

/-- The like toggle never stores a like twice. -/
theorem likesDistinct_toggleLike (failure : Option String) (actor postId : ObjectId) (s : Store)
    (hdistinct : ∀ p ∈ s.posts, p.likes.Nodup) :
    ∀ p ∈ (toggleLike failure actor postId s).1.posts, p.likes.Nodup := by
  have hsave : ∀ (s1 : Store) (q : Post), s1.posts = s.posts → q.likes.Nodup →
      ∀ p ∈ (savePost s1 q).posts, p.likes.Nodup := by
    intro s1 q h1 hq p hp
    simp only [savePost, h1] at hp
    obtain ⟨v, hv, rfl⟩ := List.mem_map.mp hp
    split
    · exact hq
    · exact hdistinct v hv
  cases hp : findPostById s postId with
  | none => simpa [toggleLike, hp] using hdistinct
  | some p =>
    have hpn : p.likes.Nodup := hdistinct p (List.mem_of_find?_eq_some hp)
    by_cases hin : actor ∈ p.likes
    · rw [toggleLike_unlike failure actor postId s p hp hin]
      exact hsave s _ rfl (hpn.erase _)
    · have hq : (p.likes ++ [actor]).Nodup :=
        List.Nodup.append hpn (List.nodup_singleton _) (by simpa using hin)
      by_cases hauth : p.author = actor
      · rw [toggleLike_like_own failure actor postId s p hp hin hauth]
        exact hsave s _ rfl hq
      · unfold toggleLike
        rw [hp]
        simp only
        rw [if_neg (fun h => hin ((indexOf_gt_iff _ _).mp h))]
        simp only [ne_eq, hauth, not_false_eq_true, if_true]
        cases findUserById s actor with
        | none => exact hdistinct
        | some u =>
          cases failure with
          | some e => exact hdistinct
          | none => exact hsave _ _ rfl hq

/-- A comment leaves the likes of every post duplicate-free. -/
theorem likesDistinct_addComment (failure : Option String) (now : Nat)
    (actor postId : ObjectId) (text : String) (s : Store)
    (hdistinct : ∀ p ∈ s.posts, p.likes.Nodup) :
    ∀ p ∈ (addComment failure now actor postId text s).1.posts, p.likes.Nodup := by
  have hsave : ∀ (q : Post), q.likes.Nodup → ∀ p ∈ (savePost s q).posts, p.likes.Nodup := by
    intro q hq p hp
    simp only [savePost] at hp
    obtain ⟨v, hv, rfl⟩ := List.mem_map.mp hp
    split
    · exact hq
    · exact hdistinct v hv
  unfold addComment
  split
  · exact hdistinct
  · cases hp : findPostById s postId with
    | none => exact hdistinct
    | some p =>
      have hpn : p.likes.Nodup := hdistinct p (List.mem_of_find?_eq_some hp)
      simp only
      split
      · split
        · exact hsave _ hpn
        · cases failure with
          | some e => exact hsave _ hpn
          | none => exact hsave _ hpn
      · exact hsave _ hpn

/-- Every handler keeps the store well formed. -/
theorem wellFormed_handle (r : Request) (s : Store) (h : WellFormed s) :
    WellFormed (handle r s).1 := by
  cases r with
  | follow failure actor target =>
    refine ⟨closed_follow failure actor target s h.1, ?_⟩
    intro p hp
    simp only [handle, follow_posts] at hp
    exact h.2 p hp
  | unfollow actor target =>
    refine ⟨closed_unfollow actor target s h.1, ?_⟩
    intro p hp
    simp only [handle, unfollow_posts] at hp
    exact h.2 p hp
  | toggleLike failure actor postId =>
    exact ⟨closed_of_users (toggleLike_users failure actor postId s) h.1,
      likesDistinct_toggleLike failure actor postId s h.2⟩
  | addComment failure now actor postId text =>
    exact ⟨closed_of_users (addComment_users failure now actor postId text s) h.1,
      likesDistinct_addComment failure now actor postId text s h.2⟩
  | sendMessage failure messageId actor receiver content =>
    have hup := sendMessage_users_posts failure messageId actor receiver content s
    refine ⟨closed_of_users hup.1 h.1, ?_⟩
    intro p hp
    simp only [handle, hup.2] at hp
    exact h.2 p hp

/-- Every store reached from a well-formed one by serving requests is well
formed. -/
theorem wellFormed_run (rs : List Request) (s : Store) (h : WellFormed s) :
    WellFormed (run rs s) := by
  induction rs generalizing s with
  | nil => exact h
  | cons r rest ih => exact ih _ (wellFormed_handle r s h)

/-- Follow with the `toString()` form of the own id is refused, and the store
is returned as it was. -/
theorem follow_own_toString_rejected (failure : Option String) (a : ObjectId) (s : Store) :
    follow failure a a.toString s = (s, Response.error 400 "Cannot follow yourself") := by
  simp [follow]

/-- Follow of a stored user that is not yet a connection, whatever the spelling
of the id and with a working notification store: the connection is appended,
the notification inserted. -/
theorem follow_new (a b : ObjectId) (target : String) (s : Store) (ua ub : User)
    (hcast : castObjectId target = some b) (hab : a ≠ b)
    (ha : findUserById s a = some ua) (hb : findUserById s b = some ub)
    (hnot : b ∉ ua.connections) :
    follow none a target s
      = ({ saveUser s { ua with connections := ua.connections ++ [b] } with
            notifications := s.notifications ++
              [{ recipient := b, sender := a, type := .follow,
                 message := ua.name ++ " started following you" }] },
         Response.message 200 "User followed successfully") := by
  have hself : ¬ target = a.toString := fun h =>
    hab (eq_of_toString_eq_cast hcast h.symm)
  have hinc : includesText ua.connections target = false := by
    cases h : includesText ua.connections target with
    | false => rfl
    | true => exact absurd (mem_of_includesText hcast h) hnot
  simp [follow, hself, hcast, ha, hb, hinc, saveNotification, saveUser]

/-- Follow with a failing notification write: the connection is stored, the
answer is 400 with the message of the error. -/
theorem follow_notification_failure (e : String) (a b : ObjectId) (target : String)
    (s : Store) (ua ub : User)
    (hcast : castObjectId target = some b) (hab : a ≠ b)
    (ha : findUserById s a = some ua) (hb : findUserById s b = some ub)
    (hnot : b ∉ ua.connections) :
    follow (some e) a target s
      = (saveUser s { ua with connections := ua.connections ++ [b] }, Response.error 400 e) := by
  have hself : ¬ target = a.toString := fun h =>
    hab (eq_of_toString_eq_cast hcast h.symm)
  have hinc : includesText ua.connections target = false := by
    cases h : includesText ua.connections target with
    | false => rfl
    | true => exact absurd (mem_of_includesText hcast h) hnot
  simp [follow, hself, hcast, ha, hb, hinc, saveNotification]

/-- A repeated follow with the `toString()` form of an id that is already a
connection is refused, and the store is returned as it was. -/
theorem follow_toString_again_rejected (failure : Option String) (a b : ObjectId) (s : Store)
    (ua ub : User) (hab : a ≠ b) (ha : findUserById s a = some ua)
    (hb : findUserById s b = some ub) (hin : b ∈ ua.connections) :
    follow failure a b.toString s = (s, Response.error 400 "Already following this user") := by
  have hself : ¬ b.toString = a.toString := fun h => hab (toString_injective h).symm
  simp [follow, hself, castObjectId_toString, ha, hb, (includesText_toString _ _).mpr hin]

/-- Comment with a failing notification write: the comment is stored, the answer
is 400 with the message of the error. -/
theorem addComment_notification_failure (e : String) (now : Nat) (actor postId : ObjectId)
    (text : String) (s : Store) (p : Post) (u : User)
    (htext : text ≠ "") (hp : findPostById s postId = some p)
    (hu : findUserById s actor = some u) (hauth : p.author ≠ actor) :
    addComment (some e) now actor postId text s
      = (savePost s { p with comments := p.comments ++
            [{ user := actor, text := text, createdAt := now }] },
         Response.error 400 e) := by
  have hu1 : findUserById (savePost s { p with comments := p.comments ++
      [{ user := actor, text := text, createdAt := now }] }) actor = some u := hu
  simp [addComment, htext, hp, hauth, hu1, saveNotification]

/-- Message to a connection, addressed by the `toString()` form of its id, with
a failing notification write: the message is stored, the answer is 400 with the
message of the error. -/
theorem sendMessage_notification_failure (e : String) (messageId a b : ObjectId)
    (content : String) (s : Store) (ua ub : User)
    (hcontent : content ≠ "") (ha : findUserById s a = some ua)
    (hb : findUserById s b = some ub) (hab : a ≠ b) (hin : b ∈ ua.connections) :
    sendMessage (some e) messageId a b.toString content s
      = (saveMessage s { _id := messageId, sender := a, receiver := b, content := content },
         Response.error 400 e) := by
  have hu1 : findUserById (saveMessage s
      { _id := messageId, sender := a, receiver := b, content := content }) a = some ua := ha
  have hself : ¬ a.toString = b.toString := fun h => hab (toString_injective h)
  have hne : b.toString ≠ "" := by
    intro h
    have hcast := castObjectId_toString b
    have hempty : castObjectId "" = none := by decide
    rw [h, hempty] at hcast
    cases hcast
  simp [sendMessage, hcontent, hne, castObjectId_toString, ha, hb, hself,
    (includesText_toString _ _).mpr hin, hu1, saveNotification]

/-- Like with a failing notification write: the throw comes before
`post.save()`, the store is returned as it was. -/
theorem toggleLike_notification_failure (e : String) (actor postId : ObjectId) (s : Store)
    (p : Post) (u : User) (hp : findPostById s postId = some p)
    (hu : findUserById s actor = some u) (hauth : p.author ≠ actor) (hnot : actor ∉ p.likes) :
    toggleLike (some e) actor postId s = (s, Response.error 400 e) := by
  unfold toggleLike
  rw [hp]
  simp only
  rw [if_neg (fun h => hnot ((indexOf_gt_iff _ _).mp h))]
  simp [hauth, hu, saveNotification]

/-- Stats for an id without a user document: the `catch` answers 500. -/
theorem networkStats_absent (a : ObjectId) (s : Store) (h : findUserById s a = none) :
    networkStats a s = Response.error 500 (nullPropertyError "connections") := by
  simp [networkStats, h]

/-- The mutual route tests for a missing requesting user and answers 404. -/
theorem mutualConnections_absent (a x : ObjectId) (s : Store) (h : findUserById s a = none) :
    mutualConnections a x s = Response.error 404 "User not found" := by
  unfold mutualConnections
  rw [h]
  cases findUserById s x <;> rfl

/-- The unfollow route tests for a missing user and answers 404. -/
theorem unfollow_absent (a : ObjectId) (target : String) (s : Store)
    (h : findUserById s a = none) :
    unfollow a target s = (s, Response.error 404 "User not found") := by
  simp [unfollow, h]

/-- An unfollow request that spells a followed id in upper case finds no index
and answers 400; the lower-case spelling removes the connection. -/
theorem unfollow_uppercase_not_following :
    unfollow 11 "0000000000000000000000AB" hexStore
        = (hexStore, Response.error 400 "Not following this user") ∧
      findUserById (unfollow 11 "0000000000000000000000ab" hexStore).1 11
        = some { userG with connections := [] } := by
  decide

/-- A message to a connection whose id is spelled in upper case is refused with
403; the lower-case spelling is accepted. -/
theorem sendMessage_uppercase_forbidden :
    (sendMessage none 50 11 "0000000000000000000000AB" "hi" hexStore).2
        = Response.error 403 "You can only message people in your network" ∧
      (sendMessage none 50 11 "0000000000000000000000ab" "hi" hexStore).2
        = Response.sent 201 { _id := 50, sender := 11, receiver := 171, content := "hi" } := by
  decide

/-- Text that is not twenty-four hexadecimal digits makes the query throw, and
the follow handler answers 400 with the message of the `CastError`. -/
theorem follow_cast_error :
    follow none 10 "xyz" hexStore = (hexStore, Response.error 400 (castErrorMessage "xyz")) := by
  decide

/-- The empty store is well formed. -/
theorem wellFormed_empty : WellFormed {} := by
  decide

/-- The scenario store is well formed. -/
theorem wellFormed_scenario : WellFormed scenario := by
  decide

/-! ## The properties of the specification -/

/-- C1, the failing input: E (id `…0a`) sends a follow request for the own id
spelled with an upper-case digit. The text differs from the `toString()` form,
so the self test does not fire; `findById` and `push` cast the text to the id
of E. The handler answers with the success message, E is stored with the own
id among the connections, and a follow notification from E to E is
inserted. -/
theorem follow_self_uppercase_accepted :
    castObjectId "00000000000000000000000A" = some userE._id ∧
      findUserById hexStore 10 = some userE ∧
      follow none 10 "00000000000000000000000A" hexStore
        = ({ users := [{ userE with connections := [10] }, userF, userG],
             notifications := [{ recipient := 10, sender := 10, type := .follow,
                                 message := "E started following you" }] },
           Response.message 200 "User followed successfully") ∧
      follow none 10 "00000000000000000000000a" hexStore
        = (hexStore, Response.error 400 "Cannot follow yourself") := by
  decide

/-- C2, the failing input: E follows F with the id in lower case, then again
with the same id in upper case. The first call appends F. In the second call
`includes` compares the upper-case text with the lower-case `toString()` form
and does not find it: the handler answers with the success message and E is
stored with F twice among the connections. Repeating the lower-case request
answers 400 "Already following this user" and leaves the store as it is. -/
theorem follow_uppercase_again_accepted :
    (10 : ObjectId) ≠ 171 ∧ findUserById hexStore 10 = some userE ∧
      findUserById hexStore 171 = some userF ∧ 171 ∉ userE.connections ∧
      findUserById (follow none 10 "0000000000000000000000ab" hexStore).1 10
        = some { userE with connections := [171] } ∧
      castObjectId "0000000000000000000000AB" = some userF._id ∧
      (follow none 10 "0000000000000000000000AB"
          (follow none 10 "0000000000000000000000ab" hexStore).1).2
        = Response.message 200 "User followed successfully" ∧
      findUserById (follow none 10 "0000000000000000000000AB"
          (follow none 10 "0000000000000000000000ab" hexStore).1).1 10
        = some { userE with connections := [171, 171] } ∧
      follow none 10 "0000000000000000000000ab"
          (follow none 10 "0000000000000000000000ab" hexStore).1
        = ((follow none 10 "0000000000000000000000ab" hexStore).1,
           Response.error 400 "Already following this user") := by
  decide

/-- Counterexample to C3 as stated: in the store reached when E follows F twice
(the second request spelling the id in upper case) E holds F twice; with G, who
follows F, the mutual route counts 2 and previews F twice, while the set
intersection of the two connection lists has one member. And where two users
share a reference to an id that no stored user carries, the route counts 0
while the set intersection has one member. -/
theorem mutualConnections_counts_duplicates :
    followedTwice = run [.follow none 10 "0000000000000000000000ab",
        .follow none 10 "0000000000000000000000AB"] hexStore ∧
      findUserById followedTwice 10 = some { userE with connections := [171, 171] } ∧
      findUserById followedTwice 11 = some userG ∧
      mutualConnections 10 11 followedTwice
        = Response.mutuals 2 [{ _id := 171, name := "F", profilePicture := "" },
            { _id := 171, name := "F", profilePicture := "" }] ∧
      (([171, 171] : List ObjectId).toFinset ∩ userG.connections.toFinset).card = 1 ∧
      mutualConnections 12 14 danglingStore = Response.mutuals 0 [] ∧
      (([13] : List ObjectId).toFinset ∩ ([13] : List ObjectId).toFinset).card = 1 := by
  decide

/-- C3, amended: for stored users `a` (the requesting user) and `b` (the
target), in a store whose connection references point to stored users and
where the connections of `a` hold no id twice, `mutualConnections a b` returns
as count the size of the set intersection of the two connection lists, and as
preview the projections `{ _id, name, profilePicture }` of the first five
members of the intersection in the order of the connections of `a`. -/
theorem mutualConnections_intersection (a b : ObjectId) (s : Store) (ua ub : User)
    (ha : findUserById s a = some ua) (hb : findUserById s b = some ub)
    (hclosed : Closed s) (hnodup : ua.connections.Nodup) :
    ∃ preview : List ConnectionPreview,
      mutualConnections a b s
          = Response.mutuals (ua.connections.toFinset ∩ ub.connections.toFinset).card preview ∧
        preview.map (fun p => p._id)
          = (ua.connections.filter (fun c => c ∈ ub.connections)).take 5 ∧
        ∀ p ∈ preview, ∃ u, findUserById s p._id = some u ∧
          p = { _id := u._id, name := u.name, profilePicture := u.profilePicture } := by
  have hstored : ∀ c ∈ ua.connections, (findUserById s c).isSome :=
    hclosed ua (findUserById_mem ha)
  have hids : mutualIds s ua ub = ua.connections.filter (fun c => c ∈ ub.connections) := by
    unfold mutualIds
    apply List.filter_congr
    intro c hc
    simp [hstored c hc]
  have hcard : (ua.connections.toFinset ∩ ub.connections.toFinset).card
      = (ua.connections.filter (fun c => c ∈ ub.connections)).length := by
    rw [← List.toFinset_card_of_nodup (hnodup.filter _)]
    congr 1
    ext c
    simp [List.mem_filter]
  have hids5 : ∀ c ∈ (mutualIds s ua ub).take 5, (findUserById s c).isSome := by
    intro c hc
    rw [hids] at hc
    exact hstored c (List.mem_of_mem_filter (List.mem_of_mem_take hc))
  refine ⟨(populate s ((mutualIds s ua ub).take 5)).map
    (fun conn => { _id := conn._id, name := conn.name, profilePicture := conn.profilePicture }),
    ?_, ?_, ?_⟩
  · rw [mutualConnections_eq, hb, ha, hcard, ← hids]
  · rw [List.map_map, ← hids]
    have := populate_ids s ((mutualIds s ua ub).take 5)
    rw [List.filter_eq_self.mpr (fun c hc => by simpa using hids5 c hc)] at this
    exact this
  · intro p hp
    obtain ⟨u, hu, rfl⟩ := List.mem_map.mp hp
    obtain ⟨c, _, hc⟩ := mem_populate.mp hu
    have := findUserById_id hc
    exact ⟨u, by simpa [this] using hc, rfl⟩

/-- Witness of amended C3, the scenario of the specification: A has connections B and C,
B has connections C and D; the count is 1 and the preview is C. -/
theorem mutualConnections_intersection_witness :
    findUserById scenario 1 = some userA ∧ findUserById scenario 2 = some userB ∧
      Closed scenario ∧ userA.connections.Nodup ∧
      mutualConnections 1 2 scenario
        = Response.mutuals 1 [{ _id := 3, name := "C", profilePicture := "" }] ∧
      ∃ preview : List ConnectionPreview,
        mutualConnections 1 2 scenario
            = Response.mutuals (userA.connections.toFinset ∩ userB.connections.toFinset).card
                preview ∧
          preview.map (fun p => p._id)
            = (userA.connections.filter (fun c => c ∈ userB.connections)).take 5 ∧
          ∀ p ∈ preview, ∃ u, findUserById scenario p._id = some u ∧
            p = { _id := u._id, name := u.name, profilePicture := u.profilePicture } :=
  ⟨by decide, by decide, by decide, by decide, by decide,
    mutualConnections_intersection 1 2 scenario userA userB (by decide) (by decide)
      (by decide) (by decide)⟩

/-- C4: for every store whose connection references point to stored users and
every stored user `a`, `networkStats a` reports as `networkSize` the number of
distinct ids in the union of the connection lists of the direct connections of
`a`, minus `a`, minus the direct connections of `a` (and as `connections` the
number of direct connections); neither `a` nor a direct connection is in the
counted set. -/
theorem networkStats_networkSize (a : ObjectId) (s : Store) (u : User)
    (ha : findUserById s a = some u) (hclosed : Closed s) :
    networkStats a s = Response.stats u.connections.length (secondDegree s u).card ∧
      a ∉ secondDegree s u ∧ ∀ c ∈ u.connections, c ∉ secondDegree s u := by
  have hua : u._id = a := findUserById_id ha
  refine ⟨?_, by simp [secondDegree, hua], fun c hc => by simp [secondDegree, hc]⟩
  have hstored : ∀ c ∈ u.connections, (findUserById s c).isSome :=
    hclosed u (findUserById_mem ha)
  have hcs : ∀ c ∈ populate s u.connections, findUserById s c._id = some c := by
    intro c hc
    obtain ⟨d, _, hd⟩ := mem_populate.mp hc
    rw [findUserById_id hd]; exact hd
  have hidsmap : (populate s u.connections).map (fun v => v._id) = u.connections := by
    rw [populate_ids, List.filter_eq_self.mpr]
    intro c hc; simpa using hstored c hc
  obtain ⟨ids, h1, h2, h3⟩ := collectNetworkIds_ok s (populate s u.connections) [] hcs List.nodup_nil
  have hself : (setDelete ids a).Nodup := h2.erase _
  obtain ⟨h4, h5⟩ := foldl_setDelete (populate s u.connections) (setDelete ids a) hself
  unfold networkStats
  rw [ha]
  simp only [h1]
  rw [populate_length_of_stored s _ hstored, ← List.toFinset_card_of_nodup h4]
  congr 2
  ext x
  rw [List.mem_toFinset, h5 x, hidsmap]
  unfold setDelete
  rw [h2.mem_erase_iff, h3 x]
  unfold secondDegree
  simp only [Finset.mem_sdiff, Finset.mem_biUnion, List.mem_toFinset, Finset.mem_singleton,
    List.not_mem_nil, false_or, hua]
  have key : (∃ c ∈ populate s u.connections, x ∈ (populate s c.connections).map (fun v => v._id))
      ↔ ∃ c ∈ u.connections, x ∈ connectionsOf s c := by
    constructor
    · rintro ⟨c, hc, hx⟩
      refine ⟨c._id, ?_, ?_⟩
      · rw [← hidsmap]; exact List.mem_map_of_mem _ hc
      · rw [populate_ids] at hx
        simp only [connectionsOf, hcs c hc]
        exact List.mem_of_mem_filter hx
    · rintro ⟨c, hc, hx⟩
      unfold connectionsOf at hx
      cases hf : findUserById s c with
      | none => simp [hf] at hx
      | some cu =>
        rw [hf] at hx
        refine ⟨cu, mem_populate.mpr ⟨c, hc, hf⟩, ?_⟩
        rw [populate_ids, List.mem_filter]
        exact ⟨hx, hclosed cu (findUserById_mem hf) x hx⟩
  rw [key]
  tauto

/-- Witness of C4 on the scenario store: A has two connections and one user, D,
at distance two. -/
theorem networkStats_networkSize_witness :
    findUserById scenario 1 = some userA ∧ Closed scenario ∧
      networkStats 1 scenario = Response.stats 2 1 ∧
      (networkStats 1 scenario
          = Response.stats userA.connections.length (secondDegree scenario userA).card ∧
        1 ∉ secondDegree scenario userA ∧
        ∀ c ∈ userA.connections, c ∉ secondDegree scenario userA) :=
  ⟨by decide, by decide, by decide,
    networkStats_networkSize 1 scenario userA (by decide) (by decide)⟩

/-- C5: for a stored post `p` whose likes hold no id twice and a stored user
`actor`, two successive `toggleLike` calls (the notification store accepting
writes) leave a stored post in which `actor` is among the likes iff it was
before, the likers are the same set of ids, and the number of likes is
unchanged. -/
theorem toggleLike_twice (actor postId : ObjectId) (s : Store) (p : Post) (u : User)
    (hp : findPostById s postId = some p) (hu : findUserById s actor = some u)
    (hnodup : p.likes.Nodup) :
    ∃ p2, findPostById (toggleLike none actor postId (toggleLike none actor postId s).1).1 postId
          = some p2 ∧
      (actor ∈ p2.likes ↔ actor ∈ p.likes) ∧
      (∀ v, v ∈ p2.likes ↔ v ∈ p.likes) ∧
      p2.likes.length = p.likes.length := by
  suffices h : ∃ p2, findPostById
      (toggleLike none actor postId (toggleLike none actor postId s).1).1 postId = some p2 ∧
      p2.likes.Perm p.likes by
    obtain ⟨p2, h1, h2⟩ := h
    exact ⟨p2, h1, h2.mem_iff, fun v => h2.mem_iff, h2.length_eq⟩
  by_cases hin : actor ∈ p.likes
  · -- unlike, then like again
    rw [toggleLike_unlike none actor postId s p hp hin]
    have hp1 : findPostById (savePost s { p with likes := p.likes.erase actor }) postId
        = some { p with likes := p.likes.erase actor } :=
      findPostById_savePost_self s p _ postId hp rfl
    have hnot1 : actor ∉ ({ p with likes := p.likes.erase actor } : Post).likes := by
      simp [hnodup.mem_erase_iff]
    have hperm : (p.likes.erase actor ++ [actor]).Perm p.likes :=
      (List.perm_append_comm.trans (List.perm_cons_erase hin).symm)
    by_cases hauth : p.author = actor
    · rw [toggleLike_like_own none actor postId _ _ hp1 hnot1 hauth]
      exact ⟨_, findPostById_savePost_self _ _ _ postId hp1 rfl, hperm⟩
    · have hu1 : findUserById (savePost s { p with likes := p.likes.erase actor }) actor = some u := hu
      rw [toggleLike_like_other actor postId _ _ u hp1 hnot1 hauth hu1]
      exact ⟨_, findPostById_savePost_self _ _ _ postId hp1 rfl, hperm⟩
  · -- like, then unlike
    have herase : (p.likes ++ [actor]).erase actor = p.likes := by
      rw [List.erase_append_right _ hin]; simp
    have hin1 : actor ∈ ({ p with likes := p.likes ++ [actor] } : Post).likes := by simp
    by_cases hauth : p.author = actor
    · rw [toggleLike_like_own none actor postId s p hp hin hauth]
      have hp1 := findPostById_savePost_self s p { p with likes := p.likes ++ [actor] } postId hp rfl
      rw [toggleLike_unlike none actor postId _ _ hp1 hin1]
      refine ⟨_, findPostById_savePost_self _ _ _ postId hp1 rfl, ?_⟩
      simp only [herase]
      exact List.Perm.refl _
    · rw [toggleLike_like_other actor postId s p u hp hin hauth hu]
      have hp0 : findPostById { s with notifications := s.notifications ++
              [{ recipient := p.author, sender := actor, type := .like,
                 message := u.name ++ " liked your post", relatedPost := some p._id }] } postId
          = some p := hp
      have hp1 := findPostById_savePost_self _ p { p with likes := p.likes ++ [actor] } postId hp0 rfl
      rw [toggleLike_unlike none actor postId _ _ hp1 hin1]
      refine ⟨_, findPostById_savePost_self _ _ _ postId hp1 rfl, ?_⟩
      simp only [herase]
      exact List.Perm.refl _

/-- Witness of C5 on the scenario store: A likes and unlikes the post of B. -/
theorem toggleLike_twice_witness :
    findPostById scenario 10 = some postOfB ∧ findUserById scenario 1 = some userA ∧
      postOfB.likes.Nodup ∧
      ∃ p2, findPostById (toggleLike none 1 10 (toggleLike none 1 10 scenario).1).1 10
            = some p2 ∧
        ((1 : ObjectId) ∈ p2.likes ↔ (1 : ObjectId) ∈ postOfB.likes) ∧
        (∀ v, v ∈ p2.likes ↔ v ∈ postOfB.likes) ∧
        p2.likes.length = postOfB.likes.length :=
  ⟨by decide, by decide, by decide,
    toggleLike_twice 1 10 scenario postOfB userA (by decide) (by decide) (by decide)⟩

/-- C6: for a stored post `p` and a stored user `actor` who is not the author
and has not liked `p`, the first `toggleLike` inserts exactly one notification,
of type `like`, addressed to the author with sender `actor`, and the second
`toggleLike` (the unlike) inserts none. -/
theorem like_then_unlike_one_notification (actor postId : ObjectId) (s : Store) (p : Post)
    (u : User) (hp : findPostById s postId = some p) (hu : findUserById s actor = some u)
    (hauth : p.author ≠ actor) (hnot : actor ∉ p.likes) :
    (toggleLike none actor postId s).1.notifications
        = s.notifications ++
            [{ recipient := p.author, sender := actor, type := .like,
               message := u.name ++ " liked your post", relatedPost := some p._id }] ∧
      (toggleLike none actor postId (toggleLike none actor postId s).1).1.notifications
        = (toggleLike none actor postId s).1.notifications := by
  rw [toggleLike_like_other actor postId s p u hp hnot hauth hu]
  have hp0 : findPostById { s with notifications := s.notifications ++
          [{ recipient := p.author, sender := actor, type := .like,
             message := u.name ++ " liked your post", relatedPost := some p._id }] } postId
      = some p := hp
  have hp1 := findPostById_savePost_self _ p { p with likes := p.likes ++ [actor] } postId hp0 rfl
  have hin1 : actor ∈ ({ p with likes := p.likes ++ [actor] } : Post).likes := by simp
  rw [toggleLike_unlike none actor postId _ _ hp1 hin1]
  exact ⟨rfl, rfl⟩

/-- Witness of C6 on the scenario store: A likes the post of B twice. -/
theorem like_then_unlike_one_notification_witness :
    findPostById scenario 10 = some postOfB ∧ findUserById scenario 1 = some userA ∧
      postOfB.author ≠ 1 ∧ 1 ∉ postOfB.likes ∧
      (toggleLike none 1 10 scenario).1.notifications
        = scenario.notifications ++
            [{ recipient := postOfB.author, sender := 1, type := .like,
               message := userA.name ++ " liked your post", relatedPost := some postOfB._id }] ∧
      (toggleLike none 1 10 (toggleLike none 1 10 scenario).1).1.notifications
        = (toggleLike none 1 10 scenario).1.notifications :=
  ⟨by decide, by decide, by decide, by decide,
    like_then_unlike_one_notification 1 10 scenario postOfB userA (by decide) (by decide)
      (by decide) (by decide)⟩

/-- Counterexample to C7 as stated: A and D are stored, distinct, and D is not a
connection of A, yet `sendMessage` with the empty content is stopped by the
`content` validator and answers 400 with the validation errors, not 403. -/
theorem sendMessage_empty_content_not_forbidden :
    findUserById scenario 1 = some userA ∧ findUserById scenario 4 = some userD ∧
      (1 : ObjectId) ≠ 4 ∧ 4 ∉ userA.connections ∧
      castObjectId "000000000000000000000004" = some userD._id ∧
      sendMessage none 50 1 "000000000000000000000004" "" scenario
        = (scenario, Response.validationErrors 400 ["Message content is required"]) ∧
      (sendMessage none 50 1 "000000000000000000000004" "" scenario).2
        ≠ Response.error 403 "You can only message people in your network" := by
  decide

/-- C7, amended: for stored users `a` and `b` with `a ≠ b`, `b` not among the
connections of `a`, and a non-empty content, `sendMessage` to `b` (in whatever
spelling `receiver` of the id of `b`) answers 403 "You can only message people
in your network" (the Forbidden kind) and returns the store unchanged: no
message and no notification is written. -/
theorem sendMessage_forbidden (failure : Option String) (messageId a b : ObjectId)
    (receiver content : String) (s : Store) (ua ub : User)
    (hcast : castObjectId receiver = some b)
    (ha : findUserById s a = some ua) (hb : findUserById s b = some ub)
    (hab : a ≠ b) (hnot : b ∉ ua.connections) (hcontent : content ≠ "") :
    sendMessage failure messageId a receiver content s
      = (s, Response.error 403 "You can only message people in your network") := by
  have hne : receiver ≠ "" := by
    intro h
    have hempty : castObjectId "" = none := by decide
    rw [h, hempty] at hcast
    cases hcast
  have hself : ¬ a.toString = receiver := fun h => hab (eq_of_toString_eq_cast hcast h)
  have hinc : includesText ua.connections receiver = false := by
    cases h : includesText ua.connections receiver with
    | false => rfl
    | true => exact absurd (mem_of_includesText hcast h) hnot
  simp [sendMessage, hcontent, hne, hcast, ha, hb, hself, hinc]

/-- Witness of amended C7 on the scenario store: A writes to D. -/
theorem sendMessage_forbidden_witness :
    castObjectId "000000000000000000000004" = some 4 ∧
      findUserById scenario 1 = some userA ∧ findUserById scenario 4 = some userD ∧
      (1 : ObjectId) ≠ 4 ∧ 4 ∉ userA.connections ∧ "hi" ≠ "" ∧
      sendMessage none 50 1 "000000000000000000000004" "hi" scenario
        = (scenario, Response.error 403 "You can only message people in your network") :=
  ⟨by decide, by decide, by decide, by decide, by decide, by decide,
    sendMessage_forbidden none 50 1 4 "000000000000000000000004" "hi" scenario userA userD
      (by decide) (by decide) (by decide) (by decide) (by decide) (by decide)⟩

/-- C8, the failing input: A likes the post of B while the notification write
fails. The handler answers 400 and the store is the one it was given, the post
still without the like; on the same store the follow handler keeps the
appended connection when its notification write fails. -/
theorem toggleLike_failed_notification_loses_like :
    findPostById scenario 10 = some postOfB ∧ findUserById scenario 1 = some userA ∧
      postOfB.author ≠ 1 ∧ 1 ∉ postOfB.likes ∧
      toggleLike (some "notification store unavailable") 1 10 scenario
        = (scenario, Response.error 400 "notification store unavailable") ∧
      findPostById (toggleLike (some "notification store unavailable") 1 10 scenario).1 10
        = some postOfB ∧
      findUserById
          (follow (some "notification store unavailable") 1 "000000000000000000000004"
            scenario).1 1
        = some { userA with connections := [2, 3, 4] } := by
  decide

/-- C9, the failing input: id 9 has no user document in the scenario store;
`networkStats 9` answers 500 with the message of the `TypeError`, not 404,
while the mutual route answers 404 for the same missing user. -/
theorem networkStats_absent_user_status_500 :
    findUserById scenario 9 = none ∧
      networkStats 9 scenario = Response.error 500 (nullPropertyError "connections") ∧
      (networkStats 9 scenario).status ≠ 404 ∧
      mutualConnections 9 1 scenario = Response.error 404 "User not found" := by
  decide

/-- Counterexample to C10 as stated, with `x = a`: A follows D successfully, D
was not among the connections of A, and `mutualConnections A A` goes from
count 2 to count 3. -/
theorem follow_changes_mutual_with_self :
    castObjectId "000000000000000000000004" = some userD._id ∧
      (follow none 1 "000000000000000000000004" scenario).2
        = Response.message 200 "User followed successfully" ∧
      4 ∉ connectionsOf scenario 1 ∧
      mutualConnections 1 1 scenario
        = Response.mutuals 2 [{ _id := 2, name := "B", profilePicture := "" },
            { _id := 3, name := "C", profilePicture := "" }] ∧
      mutualConnections 1 1 (follow none 1 "000000000000000000000004" scenario).1
        = Response.mutuals 3 [{ _id := 2, name := "B", profilePicture := "" },
            { _id := 3, name := "C", profilePicture := "" },
            { _id := 4, name := "D", profilePicture := "" }] ∧
      mutualConnections 1 1 (follow none 1 "000000000000000000000004" scenario).1
        ≠ mutualConnections 1 1 scenario := by
  decide

/-- C10, amended: when `follow a b` succeeds (`target` being the text that
spells the id `b` in the request), `x` is a user id other than `a` and `b` is
not among the connections of `x`, `mutualConnections a x` returns the same
response (count and preview) after the follow as before it. -/
theorem follow_preserves_mutual (failure : Option String) (a b x : ObjectId)
    (target : String) (s : Store)
    (hok : (follow failure a target s).2 = Response.message 200 "User followed successfully")
    (hcast : castObjectId target = some b) (hxa : x ≠ a) (hbx : b ∉ connectionsOf s x) :
    mutualConnections a x (follow failure a target s).1 = mutualConnections a x s := by
  obtain ⟨ua, b1, hcast1, ha, _, husers⟩ := follow_success failure a target s hok
  have hb1 : b = b1 := Option.some.inj (hcast.symm.trans hcast1)
  subst hb1
  have hida := findUserById_id ha
  generalize (follow failure a target s).1 = s1 at husers
  have hfind : ∀ i, findUserById s1 i
      = if i = a then some { ua with connections := ua.connections ++ [b] }
        else findUserById s i := by
    intro i
    have e : findUserById s1 i
        = findUserById (saveUser s { ua with connections := ua.connections ++ [b] }) i := by
      unfold findUserById; rw [husers]
    have ha1 : findUserById s ua._id = some ua := by rw [hida]; exact ha
    rw [e, findUserById_saveUser_eq s ua { ua with connections := ua.connections ++ [b] } i
      ha1 rfl, hida]
  have hsome : ∀ i, (findUserById s1 i).isSome = (findUserById s i).isSome := by
    intro i
    rw [hfind]
    split
    · next h => subst h; simp [ha]
    · rfl
  have hprev : ∀ l : List ObjectId,
      (populate s1 l).map (fun conn : User =>
          ({ _id := conn._id, name := conn.name, profilePicture := conn.profilePicture } :
            ConnectionPreview))
        = (populate s l).map (fun conn : User =>
          ({ _id := conn._id, name := conn.name, profilePicture := conn.profilePicture } :
            ConnectionPreview)) := by
    intro l
    induction l with
    | nil => rfl
    | cons c rest ih =>
      unfold populate at ih ⊢
      rw [List.filterMap_cons, List.filterMap_cons, hfind c]
      by_cases hc : c = a
      · subst hc
        simp only [if_true, ha, List.map_cons, ih]
      · simp only [hc, if_false]
        cases findUserById s c with
        | none => exact ih
        | some w => simp only [List.map_cons, ih]
  rw [mutualConnections_eq, mutualConnections_eq, hfind x, hfind a]
  simp only [hxa, if_false, if_true, ha]
  cases hx : findUserById s x with
  | none => rfl
  | some tu =>
    simp only
    have hbx1 : b ∉ tu.connections := by
      simpa [connectionsOf, hx] using hbx
    have hids : mutualIds s1 { ua with connections := ua.connections ++ [b] } tu
        = mutualIds s ua tu := by
      unfold mutualIds
      simp only [List.filter_append, hsome]
      simp [hbx1]
    rw [hids, hprev]

/-- Witness of amended C10 on the scenario store: B follows A, queried against
A, whose connections B and C do not include A; the count is 1 before and
after. -/
theorem follow_preserves_mutual_witness :
    (follow none 2 "000000000000000000000001" scenario).2
        = Response.message 200 "User followed successfully" ∧
      castObjectId "000000000000000000000001" = some 1 ∧
      (1 : ObjectId) ≠ 2 ∧ 1 ∉ connectionsOf scenario 1 ∧
      mutualConnections 2 1 scenario
        = Response.mutuals 1 [{ _id := 3, name := "C", profilePicture := "" }] ∧
      mutualConnections 2 1 (follow none 2 "000000000000000000000001" scenario).1
        = mutualConnections 2 1 scenario :=
  ⟨by decide, by decide, by decide, by decide, by decide,
    follow_preserves_mutual none 2 1 1 "000000000000000000000001" scenario
      (by decide) (by decide) (by decide) (by decide)⟩

end InternBackend
